import Mathlib

/-!
# Student Achievement Backend — verification of the achievement workflow core

Shallow embedding of the achievement status workflow and its dual-store
consistency mechanism from the `student-achievement-backend` repository
(Go, Gin + GORM/PostgreSQL + MongoDB).

Embedding conventions:
* `time.Time` is modelled as `Nat` (an abstract instant); `uuid.UUID` and
  Mongo `ObjectID` values are modelled as `String` (`uuid.Nil` is `""`,
  an ObjectID hex is a 24-character hex string).
* The two stores are explicit state: a list of PostgreSQL
  `achievement_references` rows and a list of MongoDB `achievements`
  documents.  SQL `WHERE` clauses become list filters, `First`/`FindOne`
  become `List.find?`, `UPDATE`/`UpdateOne` become maps over the lists,
  and `ORDER BY created_at DESC` becomes a sort by `createdAt` descending.
* Each fallible external call (transaction begin/commit, insert, update)
  can be made to fail through an explicit fault-injection record, mirroring
  the Go code's `if err != nil` branches; reads (`First`, `FindOne`,
  `Count`) fail exactly when no row/document matches, as in the code.
* Go functions return `Except String α` where they return `error`.
-/

namespace StudentAchievement

/-- Mongo attachment object (`model.Attachment` / `AchievementFile` in
`app/model/mongodb.go`): ⟨fileName, fileUrl, fileType, uploadedAt⟩. -/
structure Attachment where
  fileName : String
  fileUrl : String
  fileType : String
  uploadedAt : Nat
deriving DecidableEq, Repr

/-- `model.Period` (organization period) from `app/model/mongodb.go`. -/
structure Period where
  start : Option Nat
  endAt : Option Nat
deriving DecidableEq, Repr

/-- `model.AchievementDetails` from `app/model/mongodb.go`: the dynamic,
type-specific detail fields.  `time.Time` fields are `Nat`, numeric fields
are `Int`, and the `map[string]any` catch-all bag is an association list of
string-rendered values. -/
structure AchievementDetails where
  competitionName : Option String := none
  competitionLevel : Option String := none
  rank : Option Int := none
  medalType : Option String := none
  publicationType : Option String := none
  publicationTitle : Option String := none
  authors : List String := []
  publisher : Option String := none
  issn : Option String := none
  organizationName : Option String := none
  position : Option String := none
  period : Option Period := none
  certificationName : Option String := none
  issuedBy : Option String := none
  certificationNumber : Option String := none
  validUntil : Option Nat := none
  eventDate : Option Nat := none
  location : Option String := none
  organizer : Option String := none
  score : Option Int := none
  customFields : List (String × String) := []
deriving DecidableEq, Repr

/-- One MongoDB document of the `achievements` collection
(`model.Achievement` in `app/model/mongodb.go`).  The `deleted` /
`deletedAt` fields are the dynamic soft-delete marker written by
`UpdateStatus`'s `$set` (absent on freshly inserted documents, modelled as
`deleted = false`, `deletedAt = none`). -/
structure MongoAchievement where
  oid : String
  studentId : String
  achievementType : String
  title : String
  description : String
  details : AchievementDetails
  attachments : List Attachment
  tags : List String
  points : Int
  createdAt : Nat
  updatedAt : Nat
  deleted : Bool := false
  deletedAt : Option Nat := none
deriving DecidableEq, Repr

/-- One PostgreSQL row of `achievement_references`
(`model.AchievementReference` in `app/model/postgresql.go`). -/
structure AchievementReference where
  id : String
  studentId : String
  mongoAchievementID : String
  status : String
  submittedAt : Option Nat := none
  verifiedAt : Option Nat := none
  verifiedBy : Option String := none
  rejectionNote : Option String := none
  createdAt : Nat := 0
  updatedAt : Nat := 0
deriving DecidableEq, Repr

/-- One PostgreSQL row of `students` (`model.Student`), restricted to the
columns the achievement workflow reads. -/
structure Student where
  id : String
  userId : String
  advisorId : String
deriving DecidableEq, Repr

/-- One PostgreSQL row of `lecturers` (`model.Lecturer`), restricted to the
columns the achievement workflow reads. -/
structure Lecturer where
  id : String
  userId : String
deriving DecidableEq, Repr

/-- The combined persistent state: the relational rows and the document
collection touched by the achievement workflow. -/
structure DB where
  pg : List AchievementReference
  mongo : List MongoAchievement
  students : List Student := []
  lecturers : List Lecturer := []
deriving DecidableEq, Repr

/-- Database well-formedness: primary keys are unique (`id` is the primary
key of `achievement_references`, `_id` of the `achievements` collection). -/
def DB.WF (db : DB) : Prop :=
  (db.pg.map (·.id)).Nodup ∧ (db.mongo.map (·.oid)).Nodup

instance : DecidablePred DB.WF := fun db => by
  unfold DB.WF; infer_instance

/-- `validStatuses` from `achievement_repository.go`: the allowed status
enum values. -/
def validStatuses : List String :=
  ["draft", "submitted", "verified", "rejected", "deleted"]

/-- A hexadecimal digit, as accepted by `primitive.ObjectIDFromHex`. -/
def isHexDigit (c : Char) : Bool :=
  c.isDigit || (Char.ofNat 97 ≤ c && c ≤ Char.ofNat 102) ||
    (Char.ofNat 65 ≤ c && c ≤ Char.ofNat 70)

/-- `primitive.ObjectIDFromHex`: succeeds exactly on 24-character hex
strings, returning the ObjectID (kept as its hex string). -/
def objectIDFromHex (s : String) : Option String :=
  if s.length = 24 && s.toList.all isHexDigit then some s else none

/-- `gorm First` on `achievement_references` by `id`
(`FindByID` in `achievement_repository.go`): the first row matching
`WHERE id = ?`, or `gorm.ErrRecordNotFound`. -/
def pgFindByID (db : DB) (id : String) : Option AchievementReference :=
  db.pg.find? (fun r => r.id = id)

/-- Mongo `FindOne` by `_id` only (no soft-delete filter). -/
def mongoFindByOID (db : DB) (oid : String) : Option MongoAchievement :=
  db.mongo.find? (fun d => d.oid = oid)

/-- SQL `UPDATE achievement_references SET ... WHERE id = ?`: applies `f`
to every row whose `id` matches (unconditional on status, like the code). -/
def pgUpdateWhereID (db : DB) (id : String)
    (f : AchievementReference → AchievementReference) : DB :=
  { db with pg := db.pg.map (fun r => if r.id = id then f r else r) }

/-- Mongo `UpdateOne` by `_id`: applies `f` to every document whose `_id`
matches (at most one in a well-formed store). -/
def mongoUpdateWhereOID (db : DB) (oid : String)
    (f : MongoAchievement → MongoAchievement) : DB :=
  { db with mongo := db.mongo.map (fun d => if d.oid = oid then f d else d) }

/-- `lecturerRepository.FindByUserID`: `First` on `lecturers` by
`user_id`. -/
def lecturerFindByUserID (db : DB) (userID : String) : Option Lecturer :=
  db.lecturers.find? (fun l => l.userId = userID)

/-- `lecturerRepository.IsAdvisorOf`: `count > 0` over
`WHERE id = ? AND advisor_id = ?` on `students`. -/
def isAdvisorOf (db : DB) (lecturerID studentID : String) : Bool :=
  db.students.any (fun s => s.id = studentID && s.advisorId = lecturerID)

/-- `lecturerRepository.GetAdviseeStudentIDs`: the ids of students with
`advisor_id = lecturerID`. -/
def getAdviseeStudentIDs (db : DB) (lecturerID : String) : List String :=
  (db.students.filter (fun s => s.advisorId = lecturerID)).map (·.id)

/-- The comparison backing `ORDER BY created_at DESC`: row `a` sorts no
later than row `b` when its `createdAt` is no smaller. -/
def createdDesc (a b : AchievementReference) : Prop :=
  b.createdAt ≤ a.createdAt

instance : DecidableRel createdDesc := fun a b => by
  unfold createdDesc; infer_instance

instance : IsTotal AchievementReference createdDesc :=
  ⟨fun a b => Nat.le_total b.createdAt a.createdAt⟩

instance : IsTrans AchievementReference createdDesc :=
  ⟨fun _ _ _ hab hbc => Nat.le_trans hbc hab⟩

/-- `ORDER BY created_at DESC`: the result set sorted most-recent first. -/
def orderByCreatedAtDesc (rows : List AchievementReference) :
    List AchievementReference :=
  List.insertionSort createdDesc rows

/-! ## Repository layer (`app/repository/achievement_repository.go`) -/

/-- `repository.UpdateStatusOptions`. -/
structure UpdateStatusOptions where
  verifierID : Option String := none
  rejectionNote : Option String := none
deriving DecidableEq, Repr

/-- Fault injection for the fallible external calls of one repository
operation, mirroring the Go error branches: each flag makes the
corresponding store call return an error.  Reads (`First`, `FindOne`) fail
deterministically when nothing matches and are not injected. -/
structure Faults where
  pgBeginFail : Bool := false
  pgInsertFail : Bool := false
  pgUpdateFail : Bool := false
  pgCommitFail : Bool := false
  mongoInsertFail : Bool := false
  mongoUpdateFail : Bool := false
  mongoDeleteFail : Bool := false
  /-- failure of a best-effort compensating call (`_, _ =` in the Go
  code: its error is ignored, but the store is then left unchanged). -/
  mongoCompensateFail : Bool := false
deriving DecidableEq, Repr

/-- No injected faults: every store call succeeds. -/
def noFaults : Faults := {}

/-- `achievementRepository.Create`: insert the detail document into Mongo
first, stamp the returned ObjectID and the timestamps onto the reference,
then insert the reference into PostgreSQL inside a transaction; if the
PostgreSQL insert fails, compensate with a best-effort Mongo `DeleteOne`
of the fresh document and propagate the insert error.

`freshOid` is the ObjectID Mongo assigns to the inserted document and
`freshID` the UUID PostgreSQL assigns to the inserted row (both generated
by the stores in the Go code, hence parameters here).  Returns the
reference as the Go code leaves `pgData` (it mutates it in place). -/
def repoCreate (f : Faults) (now : Nat) (freshOid freshID : String)
    (db : DB) (pgData : AchievementReference) (mongoData : MongoAchievement) :
    Except String AchievementReference × DB :=
  if pgData.studentId = "" then
    (.error "StudentID harus di-set sebelum Create()", db)
  else if f.pgBeginFail then (.error "begin error", db)
  else if f.mongoInsertFail then (.error "mongo insert error", db)
  else
    let doc := { mongoData with oid := freshOid }
    let db1 : DB := { db with mongo := db.mongo ++ [doc] }
    let row :=
      { pgData with
        id := freshID
        mongoAchievementID := freshOid
        createdAt := if pgData.createdAt = 0 then now else pgData.createdAt
        updatedAt := now }
    if f.pgInsertFail then
      let db2 :=
        if f.mongoCompensateFail then db1
        else { db1 with mongo := db1.mongo.filter (fun d => d.oid ≠ freshOid) }
      (.error "postgres insert error", db2)
    else if f.pgCommitFail then
      -- the transaction is not committed: the row is not persisted,
      -- and no compensating Mongo delete is attempted on this path
      (.error "commit error", db1)
    else (.ok row, { db1 with pg := db1.pg ++ [row] })

/-- The field updates of `UpdateStatus`'s general (non-`deleted`) flow:
always `status` and `updated_at`, plus `submitted_at` on `submitted`,
`verified_at`/`verified_by` on `verified`, and additionally
`rejection_note` on `rejected` (the `verified_by`/`rejection_note`
columns only when the corresponding option is non-nil). -/
def applyStatusFields (now : Nat) (status : String)
    (opts : UpdateStatusOptions) (r : AchievementReference) :
    AchievementReference :=
  let r := { r with status := status, updatedAt := now }
  if status = "submitted" then { r with submittedAt := some now }
  else if status = "verified" then
    let r := { r with verifiedAt := some now }
    match opts.verifierID with
    | some v => { r with verifiedBy := some v }
    | none => r
  else if status = "rejected" then
    let r := { r with verifiedAt := some now }
    let r :=
      match opts.verifierID with
      | some v => { r with verifiedBy := some v }
      | none => r
    match opts.rejectionNote with
    | some n => { r with rejectionNote := some n }
    | none => r
  else r

/-- Mongo `$set {deleted: true, deletedAt: now}` (the soft-delete). -/
def setDeletedFlag (now : Nat) (d : MongoAchievement) : MongoAchievement :=
  { d with deleted := true, deletedAt := some now }

/-- Mongo `$unset {deleted, deletedAt}` (the compensating revert). -/
def unsetDeletedFlag (d : MongoAchievement) : MongoAchievement :=
  { d with deleted := false, deletedAt := none }

/-- `achievementRepository.UpdateStatus`.  For `status = "deleted"`: load
the reference, soft-delete the Mongo document (`$set deleted/deletedAt`,
erroring when no document matches the `_id`), then flip the PostgreSQL
status inside a transaction, reverting the Mongo flag (best-effort
`$unset`) when the transaction begin or the UPDATE fails — but not when
the commit fails.  For every other status: validate the enum value, then
run one unconditional `UPDATE ... WHERE id = ?` with the fields of
`applyStatusFields`; GORM reports no error when zero rows match. -/
def repoUpdateStatus (f : Faults) (now : Nat) (db : DB)
    (id status : String) (opts : UpdateStatusOptions) :
    Except String Unit × DB :=
  if ¬ validStatuses.contains status then
    (.error ("invalid status: " ++ status), db)
  else if status = "deleted" then
    match pgFindByID db id with
    | none => (.error "record not found", db)
    | some ref =>
      match objectIDFromHex ref.mongoAchievementID with
      | none => (.error "invalid ObjectID hex", db)
      | some objID =>
        if f.mongoUpdateFail then (.error "mongo soft-delete failed", db)
        else if ¬ db.mongo.any (fun d => d.oid = objID) then
          (.error "mongo document not found for deletion", db)
        else
          let db1 := mongoUpdateWhereOID db objID (setDeletedFlag now)
          if f.pgBeginFail then
            let db2 :=
              if f.mongoCompensateFail then db1
              else mongoUpdateWhereOID db1 objID unsetDeletedFlag
            (.error "begin error", db2)
          else if f.pgUpdateFail then
            let db2 :=
              if f.mongoCompensateFail then db1
              else mongoUpdateWhereOID db1 objID unsetDeletedFlag
            (.error "pg update error", db2)
          else if f.pgCommitFail then (.error "commit error", db1)
          else
            (.ok (), pgUpdateWhereID db1 id
              (fun r => { r with status := "deleted", updatedAt := now }))
  else
    if f.pgUpdateFail then (.error "pg update error", db)
    else (.ok (), pgUpdateWhereID db id (applyStatusFields now status opts))

/-- `achievementRepository.FindByStudentID`:
`WHERE student_id = ? AND status != 'deleted' ORDER BY created_at DESC`. -/
def repoFindByStudentID (db : DB) (studentID : String) :
    List AchievementReference :=
  orderByCreatedAtDesc
    (db.pg.filter (fun r => r.studentId = studentID && r.status ≠ "deleted"))

/-- `achievementRepository.FindDetailByMongoID`: parse the hex ObjectID,
then `FindOne {_id: objID, deleted: {$ne: true}}` — soft-deleted documents
are unconditionally filtered out; no document means
`mongo.ErrNoDocuments`. -/
def repoFindDetailByMongoID (db : DB) (mongoID : String) :
    Except String MongoAchievement :=
  match objectIDFromHex mongoID with
  | none => .error "the provided hex string is not a valid ObjectID"
  | some objID =>
    match db.mongo.find? (fun d => d.oid = objID && d.deleted ≠ true) with
    | none => .error "mongo: no documents in result"
    | some d => .ok d

/-- `achievementRepository.FindAll` (admin list): clamp `page` to ≥ 1 and
`limit` to `[1,100]` (default 10), optionally filter by status, count the
total, and return one page of rows ordered by `created_at DESC`. -/
def repoFindAll (db : DB) (status : Option String) (page limit : Int) :
    List AchievementReference × Nat :=
  let page := if page ≤ 0 then 1 else page
  let limit := if limit ≤ 0 || limit > 100 then 10 else limit
  let rows := db.pg.filter (fun r =>
    match status with
    | some s => if s ≠ "" then r.status = s else true
    | none => true)
  let total := rows.length
  let sorted := orderByCreatedAtDesc rows
  (((sorted.drop ((page - 1) * limit).toNat).take limit.toNat), total)

/-- `achievementRepository.UpdateContent`: load the reference, then
`$set` the whole editable content of the Mongo document (including the
`attachments` array, replaced wholesale) by `_id` only — no soft-delete
filter, no match-count check — and finally refresh `updated_at` on the
PostgreSQL row. -/
def repoUpdateContent (f : Faults) (now : Nat) (db : DB) (id : String)
    (mongoData : MongoAchievement) : Except String Unit × DB :=
  match pgFindByID db id with
  | none => (.error "record not found", db)
  | some ref =>
    match objectIDFromHex ref.mongoAchievementID with
    | none => (.error "invalid ObjectID hex", db)
    | some objID =>
      if f.mongoUpdateFail then (.error "mongo update error", db)
      else
        let db1 := mongoUpdateWhereOID db objID (fun d =>
          { d with
            achievementType := mongoData.achievementType
            title := mongoData.title
            description := mongoData.description
            details := mongoData.details
            attachments := mongoData.attachments
            tags := mongoData.tags
            points := mongoData.points
            updatedAt := now })
        if f.pgUpdateFail then (.error "pg update error", db1)
        else (.ok (), pgUpdateWhereID db1 id (fun r => { r with updatedAt := now }))

/-- `achievementRepository.AddAttachment`: load the reference, then
`UpdateOne {_id: objID, deleted: {$ne: true}} {$push: {attachments: a}}`.
The update result is discarded: when the document is soft-deleted (or
missing) nothing matches, nothing is pushed, and `nil` is still
returned. -/
def repoAddAttachment (f : Faults) (db : DB) (achievementID : String)
    (attachment : Attachment) : Except String Unit × DB :=
  match pgFindByID db achievementID with
  | none => (.error "record not found", db)
  | some ref =>
    match objectIDFromHex ref.mongoAchievementID with
    | none => (.error "invalid ObjectID hex", db)
    | some objID =>
      if f.mongoUpdateFail then (.error "mongo push error", db)
      else
        (.ok (), { db with mongo := db.mongo.map (fun d =>
          if d.oid = objID && d.deleted ≠ true then
            { d with attachments := d.attachments ++ [attachment] }
          else d) })

/-- `lecturerRepository.FindAchievementsByStudentIDs`: empty advisee list
short-circuits to `[]`; otherwise
`WHERE student_id IN ? AND status != 'deleted' ORDER BY created_at DESC`. -/
def repoFindAchievementsByStudentIDs (db : DB) (studentIDs : List String) :
    List AchievementReference :=
  if studentIDs.isEmpty then []
  else
    orderByCreatedAtDesc
      (db.pg.filter (fun r =>
        studentIDs.contains r.studentId && r.status ≠ "deleted"))

/-! ## Service layer (`app/service/achievement_service.go`)

Each handler is modelled as a pure function from the request context, the
bound input and the database state to a typed response plus the new
database state.  The gin JSON responses are abstracted into `SResp`:
`ok` (2xx), `badRequest tag` (400, carrying the code's error tag),
`unauthorized` (401), `forbidden` (403), `notFound` (404) and
`internalError` (500). -/

/-- The request context as populated by the auth middleware: role string
(`""` when absent), and the optional `studentID` / `userID` claims
(`none` when the key is missing; `some ""` models `uuid.Nil`). -/
structure Ctx where
  role : String := ""
  studentID : Option String := none
  userID : Option String := none
deriving DecidableEq, Repr

/-- `getStudentIDFromContext` combined with the services' uniform
`err != nil || studentID == uuid.Nil` guard: a usable student id, or
`none` when authentication is required. -/
def ctxValidStudentID (ctx : Ctx) : Option String :=
  match ctx.studentID with
  | some s => if s = "" then none else some s
  | none => none

/-- `getUserIDFromContext` combined with the
`err != nil || userID == uuid.Nil` guard. -/
def ctxValidUserID (ctx : Ctx) : Option String :=
  match ctx.userID with
  | some s => if s = "" then none else some s
  | none => none

/-- A service-level HTTP response, carrying a payload on success. -/
inductive SResp (α : Type) where
  | ok : α → SResp α
  | badRequest : String → SResp α
  | unauthorized : SResp α
  | forbidden : SResp α
  | notFound : SResp α
  | internalError : String → SResp α
deriving DecidableEq, Repr

/-- The JSON body bound by `CreateAchievement` / `UpdateAchievement`
(`achievementType` and `title` carry `binding:"required"`, so binding
fails when either is empty). -/
structure AchievementInput where
  achievementType : String
  title : String
  description : String := ""
  details : AchievementDetails := {}
  tags : List String := []
  points : Int := 0
  attachments : List Attachment := []
deriving DecidableEq, Repr

/-- `ShouldBindJSON` failure for `AchievementInput`: a `required` field is
missing/empty. -/
def bindFails (input : AchievementInput) : Bool :=
  input.achievementType = "" || input.title = ""

/-- The success payload of `CreateAchievement`. -/
structure CreatePayload where
  id : String
  mongoAchievementId : String
  status : String
deriving DecidableEq, Repr

/-- `achievementService.CreateAchievement` (FR-003): students only;
builds a `draft` reference and the Mongo document from the input and
calls `repo.Create`. -/
def createAchievement (f : Faults) (now : Nat) (freshOid freshID : String)
    (ctx : Ctx) (input : AchievementInput) (db : DB) :
    SResp CreatePayload × DB :=
  if ctx.role ≠ "mahasiswa" then (.forbidden, db)
  else
    match ctxValidStudentID ctx with
    | none => (.unauthorized, db)
    | some sid =>
      if bindFails input then (.badRequest "invalid input", db)
      else
        let pg : AchievementReference :=
          { id := ""
            studentId := sid
            mongoAchievementID := ""
            status := "draft"
            createdAt := now
            updatedAt := now }
        let doc : MongoAchievement :=
          { oid := ""
            studentId := sid
            achievementType := input.achievementType
            title := input.title
            description := input.description
            details := input.details
            attachments := input.attachments
            tags := input.tags
            points := input.points
            createdAt := now
            updatedAt := now }
        match repoCreate f now freshOid freshID db pg doc with
        | (.error e, db2) => (.internalError e, db2)
        | (.ok row, db2) =>
          (.ok { id := row.id
                 mongoAchievementId := row.mongoAchievementID
                 status := row.status }, db2)

/-- `achievementService.SubmitForVerification` (FR-004): students only,
owner only, `draft` only; effect `UpdateStatus(id, "submitted")`. -/
def submitForVerification (f : Faults) (now : Nat) (ctx : Ctx)
    (idParam : String) (db : DB) : SResp Unit × DB :=
  if ctx.role ≠ "mahasiswa" then (.forbidden, db)
  else
    match ctxValidStudentID ctx with
    | none => (.unauthorized, db)
    | some sid =>
      if idParam = "" then (.badRequest "missing_id", db)
      else
        match pgFindByID db idParam with
        | none => (.notFound, db)
        | some ref =>
          if ref.studentId ≠ sid then (.forbidden, db)
          else if ref.status ≠ "draft" then (.badRequest "invalid_status", db)
          else
            match repoUpdateStatus f now db idParam "submitted" {} with
            | (.error e, db2) => (.internalError e, db2)
            | (.ok _, db2) => (.ok (), db2)

/-- `achievementService.DeleteAchievement` (FR-005): students only, owner
only, `draft` only; effect `UpdateStatus(id, "deleted")` (the dual-store
soft delete). -/
def deleteAchievement (f : Faults) (now : Nat) (ctx : Ctx)
    (idParam : String) (db : DB) : SResp Unit × DB :=
  if ctx.role ≠ "mahasiswa" then (.forbidden, db)
  else
    match ctxValidStudentID ctx with
    | none => (.unauthorized, db)
    | some sid =>
      if idParam = "" then (.badRequest "missing_id", db)
      else
        match pgFindByID db idParam with
        | none => (.notFound, db)
        | some ref =>
          if ref.studentId ≠ sid then (.forbidden, db)
          else if ref.status ≠ "draft" then (.badRequest "invalid_status", db)
          else
            match repoUpdateStatus f now db idParam "deleted" {} with
            | (.error e, db2) => (.internalError e, db2)
            | (.ok _, db2) => (.ok (), db2)

/-- `achievementService.VerifyAchievement` (FR-007): advisors only
(`dosen_wali`), with an advisor relationship to the owner, `submitted`
only; effect `UpdateStatus(id, "verified", verifierId := userID)`. -/
def verifyAchievement (f : Faults) (now : Nat) (ctx : Ctx)
    (idParam : String) (db : DB) : SResp Unit × DB :=
  if ctx.role ≠ "dosen_wali" then (.forbidden, db)
  else
    match ctxValidUserID ctx with
    | none => (.unauthorized, db)
    | some uid =>
      match lecturerFindByUserID db uid with
      | none => (.forbidden, db)
      | some lect =>
        if idParam = "" then (.badRequest "missing_id", db)
        else
          match pgFindByID db idParam with
          | none => (.notFound, db)
          | some ref =>
            if ¬ isAdvisorOf db lect.id ref.studentId then (.forbidden, db)
            else if ref.status ≠ "submitted" then
              (.badRequest "invalid_status", db)
            else
              match repoUpdateStatus f now db idParam "verified"
                  { verifierID := some uid } with
              | (.error e, db2) => (.internalError e, db2)
              | (.ok _, db2) => (.ok (), db2)

/-- `achievementService.RejectAchievement` (FR-008): same gates as
`Verify`, plus a required non-empty `rejectionNote` bound after the
status check; effect
`UpdateStatus(id, "rejected", verifierId := userID, note)`. -/
def rejectAchievement (f : Faults) (now : Nat) (ctx : Ctx)
    (idParam : String) (note : String) (db : DB) : SResp Unit × DB :=
  if ctx.role ≠ "dosen_wali" then (.forbidden, db)
  else
    match ctxValidUserID ctx with
    | none => (.unauthorized, db)
    | some uid =>
      match lecturerFindByUserID db uid with
      | none => (.forbidden, db)
      | some lect =>
        if idParam = "" then (.badRequest "missing_id", db)
        else
          match pgFindByID db idParam with
          | none => (.notFound, db)
          | some ref =>
            if ¬ isAdvisorOf db lect.id ref.studentId then (.forbidden, db)
            else if ref.status ≠ "submitted" then
              (.badRequest "invalid_status", db)
            else if note = "" then (.badRequest "rejection note required", db)
            else
              match repoUpdateStatus f now db idParam "rejected"
                  { verifierID := some uid, rejectionNote := some note } with
              | (.error e, db2) => (.internalError e, db2)
              | (.ok _, db2) => (.ok (), db2)

/-- `achievementService.DetailAchievement` (read-only): load the
reference (404 when missing), apply the role gate (owner / advisor /
admin), then fetch the Mongo detail through `FindDetailByMongoID` — a
detail lookup failure is surfaced as a 500. -/
def detailAchievement (ctx : Ctx) (idParam : String) (db : DB) :
    SResp (AchievementReference × MongoAchievement) :=
  if idParam = "" then .badRequest "missing_id"
  else
    match pgFindByID db idParam with
    | none => .notFound
    | some ref =>
      let gate : SResp Unit :=
        if ctx.role = "mahasiswa" then
          let sid := ctx.studentID.getD ""
          if sid = "" || ref.studentId ≠ sid then .forbidden else .ok ()
        else if ctx.role = "dosen_wali" then
          let uid := ctx.userID.getD ""
          if uid = "" then .unauthorized
          else
            match lecturerFindByUserID db uid with
            | none => .forbidden
            | some lect =>
              if ¬ isAdvisorOf db lect.id ref.studentId then .forbidden
              else .ok ()
        else if ctx.role = "admin" then .ok ()
        else .forbidden
      match gate with
      | .ok _ =>
        match repoFindDetailByMongoID db ref.mongoAchievementID with
        | .error e => .internalError e
        | .ok detail => .ok (ref, detail)
      | .badRequest t => .badRequest t
      | .unauthorized => .unauthorized
      | .forbidden => .forbidden
      | .notFound => .notFound
      | .internalError e => .internalError e

/-- `achievementService.UpdateAchievement` (content update): students
only, owner only, `draft` only; binds the full replacement payload after
the gates and calls `repo.UpdateContent`. -/
def updateAchievement (f : Faults) (now : Nat) (ctx : Ctx)
    (idParam : String) (input : AchievementInput) (db : DB) :
    SResp Unit × DB :=
  if ctx.role ≠ "mahasiswa" then (.forbidden, db)
  else
    match ctxValidStudentID ctx with
    | none => (.unauthorized, db)
    | some sid =>
      if idParam = "" then (.badRequest "missing_id", db)
      else
        match pgFindByID db idParam with
        | none => (.notFound, db)
        | some ref =>
          if ref.studentId ≠ sid then (.forbidden, db)
          else if ref.status ≠ "draft" then (.badRequest "invalid_status", db)
          else if bindFails input then (.badRequest "invalid input", db)
          else
            let doc : MongoAchievement :=
              { oid := ""
                studentId := ref.studentId
                achievementType := input.achievementType
                title := input.title
                description := input.description
                details := input.details
                attachments := input.attachments
                tags := input.tags
                points := input.points
                createdAt := 0
                updatedAt := now }
            match repoUpdateContent f now db idParam doc with
            | (.error e, db2) => (.internalError e, db2)
            | (.ok _, db2) => (.ok (), db2)

/-! ## Concrete fixtures

A small concrete database used to evaluate the model at specific inputs
(counterexamples, failing inputs, and witnesses): one student `s1`
(user `u1`) advised by lecturer `L1` (user `u9`), with one achievement
`r1` in `draft` backed by Mongo document `oidA`. -/

/-- A valid 24-character ObjectID hex for the existing document. -/
def oidA : String := "0123456789abcdef01234567"

/-- A second valid ObjectID hex for freshly inserted documents. -/
def oidB : String := "aaaaaaaaaaaaaaaaaaaaaaaa"

/-- An attachment already present on the sample document. -/
def attA : Attachment :=
  { fileName := "bukti.pdf", fileUrl := "/uploads/achievements/r1/bukti.pdf"
    fileType := "pdf", uploadedAt := 3 }

/-- A new attachment to be appended. -/
def attB : Attachment :=
  { fileName := "foto.jpg", fileUrl := "/uploads/achievements/r1/foto.jpg"
    fileType := "jpg", uploadedAt := 4 }

/-- The sample Mongo document backing achievement `r1`. -/
def docA : MongoAchievement :=
  { oid := oidA, studentId := "s1", achievementType := "competition"
    title := "Hackathon Winner", description := ""
    details := {}, attachments := [attA], tags := [], points := 10
    createdAt := 1, updatedAt := 1 }

/-- The sample reference row `r1` (a `draft` owned by `s1`). -/
def refA : AchievementReference :=
  { id := "r1", studentId := "s1", mongoAchievementID := oidA
    status := "draft", createdAt := 1, updatedAt := 1 }

/-- The base sample database. -/
def dbA : DB :=
  { pg := [refA]
    mongo := [docA]
    students := [{ id := "s1", userId := "u1", advisorId := "L1" }]
    lecturers := [{ id := "L1", userId := "u9" }] }

/-- `dbA` with `r1` already `verified`. -/
def dbVerified : DB := { dbA with pg := [{ refA with status := "verified" }] }

/-- `dbA` with the Mongo document soft-deleted (the flag set). -/
def dbDeletedDoc : DB :=
  { dbA with mongo := [{ docA with deleted := true, deletedAt := some 2 }] }

/-- Request context of student `s1`. -/
def ctxS1 : Ctx := { role := "mahasiswa", studentID := some "s1" }

/-- Request context of a different student `s2`. -/
def ctxS2 : Ctx := { role := "mahasiswa", studentID := some "s2" }

/-- Request context of advisor `u9` (lecturer `L1`). -/
def ctxAdv : Ctx := { role := "dosen_wali", userID := some "u9" }

/-- Request context of an admin. -/
def ctxAdmin : Ctx := { role := "admin" }

/-- A valid update payload that carries no attachments. -/
def inputNoAtt : AchievementInput :=
  { achievementType := "competition", title := "Hackathon Winner v2" }

/-- A valid creation payload. -/
def inputNew : AchievementInput :=
  { achievementType := "publication", title := "Journal Article", points := 25 }

/-- The transition relation of the achievement state machine as specified:
stay put, or move along one of the four documented edges. -/
def legalEdge (old new : String) : Prop :=
  old = new ∨
    (old = "draft" ∧ new = "submitted") ∨
    (old = "submitted" ∧ new = "verified") ∨
    (old = "submitted" ∧ new = "rejected") ∨
    (old = "draft" ∧ new = "deleted")

/-! ## Helper lemmas -/

/-- `find?` by a key returns the unique element with that key when the
keys are `Nodup` (uniqueness of a primary key lookup). -/
theorem find?_key_unique {α : Type} (key : α → String) :
    ∀ {l : List α} {k : String} {a b : α},
      (l.map key).Nodup → l.find? (fun x => key x = k) = some a →
      b ∈ l → key b = k → b = a := by
  intro l
  induction l with
  | nil => intro k a b _ hfind; simp [List.find?] at hfind
  | cons x t ih =>
    intro k a b hnd hfind hmem hkey
    rw [List.map_cons, List.nodup_cons] at hnd
    by_cases hx : key x = k
    · rw [List.find?_cons_of_pos _ (by simp [hx])] at hfind
      injection hfind with h
      subst h
      rcases List.mem_cons.mp hmem with rfl | hm
      · rfl
      · exact absurd (List.mem_map.mpr ⟨b, hm, hkey.trans hx.symm⟩) hnd.1
    · rw [List.find?_cons_of_neg _ (by simp [hx])] at hfind
      rcases List.mem_cons.mp hmem with rfl | hm
      · exact absurd hkey hx
      · exact ih hnd.2 hfind hm hkey

/-- If `find?` with the weaker predicate `p` yields `a`, and `a` also
satisfies the stronger predicate `q` (with `q` implying `p` pointwise),
then `find?` with `q` yields `a` as well. -/
theorem find?_of_imp {α : Type} (p q : α → Bool)
    (himp : ∀ x, q x = true → p x = true) :
    ∀ {l : List α} {a : α}, l.find? p = some a → q a = true →
      l.find? q = some a := by
  intro l
  induction l with
  | nil => intro a h; simp [List.find?] at h
  | cons x t ih =>
    intro a hfind hqa
    by_cases hpx : p x = true
    · rw [List.find?_cons_of_pos _ hpx] at hfind
      injection hfind with h
      subst h
      rw [List.find?_cons_of_pos _ hqa]
    · have hqx : ¬ q x = true := fun h => hpx (himp x h)
      rw [List.find?_cons_of_neg _ hpx] at hfind
      rw [List.find?_cons_of_neg _ hqx]
      exact ih hfind hqa

/-- `applyStatusFields` never changes the row's primary key. -/
theorem applyStatusFields_id (now : Nat) (status : String)
    (opts : UpdateStatusOptions) (r : AchievementReference) :
    (applyStatusFields now status opts r).id = r.id := by
  unfold applyStatusFields
  repeat' split
  all_goals rfl

/-- `applyStatusFields` always sets exactly the target status. -/
theorem applyStatusFields_status (now : Nat) (status : String)
    (opts : UpdateStatusOptions) (r : AchievementReference) :
    (applyStatusFields now status opts r).status = status := by
  unfold applyStatusFields
  repeat' split
  all_goals rfl

/-- On `"deleted"` the general field update degenerates to the literal
update the `deleted` branch of `UpdateStatus` performs. -/
theorem applyStatusFields_deleted (now : Nat) (opts : UpdateStatusOptions)
    (r : AchievementReference) :
    applyStatusFields now "deleted" opts r =
      { r with status := "deleted", updatedAt := now } := by
  rfl

/-- Whatever faults occur, `UpdateStatus` leaves the reference rows either
untouched or with exactly the field update of `applyStatusFields` applied
to the rows matching the id. -/
theorem repoUpdateStatus_pg_shape (f : Faults) (now : Nat) (db : DB)
    (id status : String) (opts : UpdateStatusOptions) :
    (repoUpdateStatus f now db id status opts).2.pg = db.pg ∨
    (repoUpdateStatus f now db id status opts).2.pg =
      db.pg.map (fun r => if r.id = id then applyStatusFields now status opts r else r) := by
  unfold repoUpdateStatus
  repeat' split
  all_goals try exact Or.inl rfl
  all_goals simp only [pgUpdateWhereID, mongoUpdateWhereOID]
  · right
    simp_all [applyStatusFields_deleted]
  · exact Or.inr trivial

/-- Repackaging of `repoUpdateStatus_pg_shape` along a known result pair. -/
theorem repoUpdateStatus_pg_shape_of_eq {f : Faults} {now : Nat} {db : DB}
    {id status : String} {opts : UpdateStatusOptions}
    {res : Except String Unit} {db2 : DB}
    (heq : repoUpdateStatus f now db id status opts = (res, db2)) :
    db2.pg = db.pg ∨
    db2.pg = db.pg.map
      (fun r => if r.id = id then applyStatusFields now status opts r else r) := by
  have h := repoUpdateStatus_pg_shape f now db id status opts
  rw [heq] at h
  exact h

/-- `SubmitForVerification` either leaves the reference rows unchanged or
applies the `submitted` update to the id of a row it saw in `draft`. -/
theorem submitForVerification_pg_shape (f : Faults) (now : Nat) (ctx : Ctx)
    (id : String) (db : DB) :
    (submitForVerification f now ctx id db).2.pg = db.pg ∨
    (∃ ref, pgFindByID db id = some ref ∧ ref.status = "draft" ∧
      (submitForVerification f now ctx id db).2.pg =
        db.pg.map (fun r =>
          if r.id = id then applyStatusFields now "submitted" {} r else r)) := by
  unfold submitForVerification
  repeat' split
  all_goals try exact Or.inl rfl
  all_goals rename_i ref hfind hown hstat x ea db2 heq
  all_goals rcases repoUpdateStatus_pg_shape_of_eq heq with h1 | h1
  all_goals try exact Or.inl h1
  all_goals exact Or.inr ⟨ref, hfind, not_ne_iff.mp hstat, h1⟩

/-- `DeleteAchievement` either leaves the reference rows unchanged or
applies the `deleted` update to the id of a row it saw in `draft`. -/
theorem deleteAchievement_pg_shape (f : Faults) (now : Nat) (ctx : Ctx)
    (id : String) (db : DB) :
    (deleteAchievement f now ctx id db).2.pg = db.pg ∨
    (∃ ref, pgFindByID db id = some ref ∧ ref.status = "draft" ∧
      (deleteAchievement f now ctx id db).2.pg =
        db.pg.map (fun r =>
          if r.id = id then applyStatusFields now "deleted" {} r else r)) := by
  unfold deleteAchievement
  repeat' split
  all_goals try exact Or.inl rfl
  all_goals rename_i ref hfind hown hstat x ea db2 heq
  all_goals rcases repoUpdateStatus_pg_shape_of_eq heq with h1 | h1
  all_goals try exact Or.inl h1
  all_goals exact Or.inr ⟨ref, hfind, not_ne_iff.mp hstat, h1⟩

/-- `VerifyAchievement` either leaves the reference rows unchanged or
applies the `verified` update to the id of a row it saw in `submitted`. -/
theorem verifyAchievement_pg_shape (f : Faults) (now : Nat) (ctx : Ctx)
    (id : String) (db : DB) :
    (verifyAchievement f now ctx id db).2.pg = db.pg ∨
    (∃ ref uid, pgFindByID db id = some ref ∧ ref.status = "submitted" ∧
      (verifyAchievement f now ctx id db).2.pg =
        db.pg.map (fun r =>
          if r.id = id then
            applyStatusFields now "verified" { verifierID := some uid } r
          else r)) := by
  unfold verifyAchievement
  repeat' split
  all_goals try exact Or.inl rfl
  all_goals rename_i xu uid hequid xl lect heql hid xf ref hfind hadv hstat xe ea db2 heq
  all_goals rcases repoUpdateStatus_pg_shape_of_eq heq with h1 | h1
  all_goals try exact Or.inl h1
  all_goals exact Or.inr ⟨ref, uid, hfind, not_ne_iff.mp hstat, h1⟩

/-- `RejectAchievement` either leaves the reference rows unchanged or
applies the `rejected` update to the id of a row it saw in `submitted`. -/
theorem rejectAchievement_pg_shape (f : Faults) (now : Nat) (ctx : Ctx)
    (id note : String) (db : DB) :
    (rejectAchievement f now ctx id note db).2.pg = db.pg ∨
    (∃ ref uid, pgFindByID db id = some ref ∧ ref.status = "submitted" ∧
      (rejectAchievement f now ctx id note db).2.pg =
        db.pg.map (fun r =>
          if r.id = id then
            applyStatusFields now "rejected"
              { verifierID := some uid, rejectionNote := some note } r
          else r)) := by
  unfold rejectAchievement
  repeat' split
  all_goals try exact Or.inl rfl
  all_goals rename_i xu uid hequid xl lect heql hid xf ref hfind hadv hstat hnote xe ea db2 heq
  all_goals rcases repoUpdateStatus_pg_shape_of_eq heq with h1 | h1
  all_goals try exact Or.inl h1
  all_goals exact Or.inr ⟨ref, uid, hfind, not_ne_iff.mp hstat, h1⟩

/-- An unchanged row list trivially respects the state machine. -/
theorem edges_of_same (db : DB) :
    ∀ r2 ∈ db.pg, ∃ r ∈ db.pg, r.id = r2.id ∧ legalEdge r.status r2.status :=
  fun r2 h => ⟨r2, h, rfl, Or.inl rfl⟩

/-- A row list produced by updating the row found in status `pre` to
status `new` respects the state machine when `(pre, new)` is a legal
edge and ids are unique. -/
theorem edges_of_map (db : DB) (id pre new : String) (now : Nat)
    (opts : UpdateStatusOptions) (ref : AchievementReference)
    (hnd : (db.pg.map (·.id)).Nodup)
    (hfind : pgFindByID db id = some ref) (hpre : ref.status = pre)
    (hedge : legalEdge pre new) :
    ∀ r2 ∈ db.pg.map
      (fun r => if r.id = id then applyStatusFields now new opts r else r),
      ∃ r ∈ db.pg, r.id = r2.id ∧ legalEdge r.status r2.status := by
  intro r2 hr2
  obtain ⟨r, hr, hmap⟩ := List.mem_map.mp hr2
  unfold pgFindByID at hfind
  by_cases h : r.id = id
  · have hre : r = ref := find?_key_unique (fun x => x.id) hnd hfind hr h
    subst hmap
    refine ⟨r, hr, ?_, ?_⟩
    · rw [if_pos h, applyStatusFields_id]
    · rw [if_pos h, applyStatusFields_status, hre, hpre]
      exact hedge
  · subst hmap
    rw [if_neg h]
    exact ⟨r, hr, rfl, Or.inl rfl⟩

/-- `UpdateContent` never changes any row's status (it only refreshes
`updated_at` on the reference). -/
theorem repoUpdateContent_pg_statuses (f : Faults) (now : Nat) (db : DB)
    (id : String) (doc : MongoAchievement) :
    ((repoUpdateContent f now db id doc).2.pg.map (·.status)) =
      db.pg.map (·.status) := by
  unfold repoUpdateContent
  repeat' split
  all_goals try rfl
  simp only [pgUpdateWhereID, mongoUpdateWhereOID, List.map_map]
  apply List.map_congr_left
  intro r _
  by_cases h : r.id = id <;> simp [h, Function.comp]

/-- Repackaging of `repoUpdateContent_pg_statuses` along a known result. -/
theorem repoUpdateContent_pg_statuses_of_eq {f : Faults} {now : Nat}
    {db : DB} {id : String} {doc : MongoAchievement}
    {res : Except String Unit} {db2 : DB}
    (heq : repoUpdateContent f now db id doc = (res, db2)) :
    db2.pg.map (·.status) = db.pg.map (·.status) := by
  have h := repoUpdateContent_pg_statuses f now db id doc
  rw [heq] at h
  exact h

/-- The `.2` projection of the uniform error-translation match the
service layer wraps around a repository result pair. -/
theorem srespPair_snd (p : Except String Unit × DB) :
    (match p with
     | (Except.error e, db2) => ((SResp.internalError e : SResp Unit), db2)
     | (Except.ok _, db2) => ((SResp.ok () : SResp Unit), db2)).2 = p.2 := by
  rcases p with ⟨res, db2⟩
  cases res <;> rfl

/-- The `UpdateAchievement` handler never changes any row's status. -/
theorem updateAchievement_pg_statuses (f : Faults) (now : Nat) (ctx : Ctx)
    (id : String) (input : AchievementInput) (db : DB) :
    ((updateAchievement f now ctx id input db).2.pg.map (·.status)) =
      db.pg.map (·.status) := by
  unfold updateAchievement
  repeat' split
  all_goals try rfl
  simp only [srespPair_snd]
  apply repoUpdateContent_pg_statuses

/-- `AddAttachment` never touches the reference rows at all. -/
theorem repoAddAttachment_pg (f : Faults) (db : DB) (id : String)
    (att : Attachment) :
    (repoAddAttachment f db id att).2.pg = db.pg := by
  unfold repoAddAttachment
  repeat' split
  all_goals rfl

/-- `repoCreate` either leaves the reference rows unchanged or appends
one row carrying the status of the supplied reference data. -/
theorem repoCreate_pg_shape (f : Faults) (now : Nat)
    (freshOid freshID : String) (db : DB) (pgData : AchievementReference)
    (mongoData : MongoAchievement) :
    (repoCreate f now freshOid freshID db pgData mongoData).2.pg = db.pg ∨
    (∃ row, (repoCreate f now freshOid freshID db pgData mongoData).2.pg =
        db.pg ++ [row] ∧ row.status = pgData.status) := by
  unfold repoCreate
  simp only []
  repeat' split
  all_goals try exact Or.inl rfl
  all_goals exact Or.inr ⟨_, rfl, rfl⟩

/-- The `.2` projection of the error-translation match wrapped around
`repo.Create`'s result in the create handler. -/
theorem createPair_snd (p : Except String AchievementReference × DB) :
    (match p with
     | (Except.error e, db2) => ((SResp.internalError e : SResp CreatePayload), db2)
     | (Except.ok row, db2) =>
       (SResp.ok { id := row.id, mongoAchievementId := row.mongoAchievementID,
                   status := row.status }, db2)).2 = p.2 := by
  rcases p with ⟨res, db2⟩
  cases res <;> rfl

/-- `CreateAchievement` either leaves the reference rows unchanged or
appends one fresh row, in status `draft`. -/
theorem createAchievement_pg_shape (f : Faults) (now : Nat)
    (freshOid freshID : String) (ctx : Ctx) (input : AchievementInput)
    (db : DB) :
    (createAchievement f now freshOid freshID ctx input db).2.pg = db.pg ∨
    (∃ row, (createAchievement f now freshOid freshID ctx input db).2.pg =
        db.pg ++ [row] ∧ row.status = "draft") := by
  unfold createAchievement
  repeat' split
  all_goals try exact Or.inl rfl
  simp only [createPair_snd]
  rcases repoCreate_pg_shape f now freshOid freshID db _ _ with h | ⟨row, h, hs⟩
  · exact Or.inl h
  · exact Or.inr ⟨row, h, hs.trans rfl⟩

/-! ## Claim theorems -/

/-- Claim C1: the only status transitions a Coordinator operation can
perform are draft→submitted (`SubmitForVerification`), submitted→verified
(`Verify`), submitted→rejected (`Reject`) and draft→deleted (`Delete`):
under unique ids, after any of the four transition handlers every row
relates to its pre-state row by `legalEdge`, content update / attachment
append never change a status, and `Create` only appends a fresh `draft`
row.  An attempt along any other edge (`Submit` when not `draft`,
`Verify`/`Reject` when not `submitted`, `Delete` when not `draft`) fails
with the code's InvalidStateTransition error (HTTP 400, tag
`invalid_status`) and leaves the whole database — hence the stored
status — unchanged, never silently no-opping. -/
theorem C1_coordinator_status_transitions
    (f : Faults) (now : Nat) (ctx : Ctx)
    (id note sid uid freshOid freshID : String)
    (input : AchievementInput) (att : Attachment)
    (db : DB) (ref : AchievementReference) (lect : Lecturer) :
    (DB.WF db →
      (∀ r2 ∈ (submitForVerification f now ctx id db).2.pg,
        ∃ r ∈ db.pg, r.id = r2.id ∧ legalEdge r.status r2.status) ∧
      (∀ r2 ∈ (deleteAchievement f now ctx id db).2.pg,
        ∃ r ∈ db.pg, r.id = r2.id ∧ legalEdge r.status r2.status) ∧
      (∀ r2 ∈ (verifyAchievement f now ctx id db).2.pg,
        ∃ r ∈ db.pg, r.id = r2.id ∧ legalEdge r.status r2.status) ∧
      (∀ r2 ∈ (rejectAchievement f now ctx id note db).2.pg,
        ∃ r ∈ db.pg, r.id = r2.id ∧ legalEdge r.status r2.status) ∧
      ((updateAchievement f now ctx id input db).2.pg.map (·.status) =
        db.pg.map (·.status)) ∧
      ((repoAddAttachment f db id att).2.pg = db.pg) ∧
      ((createAchievement f now freshOid freshID ctx input db).2.pg = db.pg ∨
        ∃ row, (createAchievement f now freshOid freshID ctx input db).2.pg =
          db.pg ++ [row] ∧ row.status = "draft")) ∧
    (ctx.role = "mahasiswa" → ctxValidStudentID ctx = some sid → id ≠ "" →
      pgFindByID db id = some ref → ref.studentId = sid →
      ref.status ≠ "draft" →
      submitForVerification f now ctx id db =
        (.badRequest "invalid_status", db) ∧
      deleteAchievement f now ctx id db =
        (.badRequest "invalid_status", db)) ∧
    (ctx.role = "dosen_wali" → ctxValidUserID ctx = some uid →
      lecturerFindByUserID db uid = some lect → id ≠ "" →
      pgFindByID db id = some ref →
      isAdvisorOf db lect.id ref.studentId = true →
      ref.status ≠ "submitted" →
      verifyAchievement f now ctx id db =
        (.badRequest "invalid_status", db) ∧
      rejectAchievement f now ctx id note db =
        (.badRequest "invalid_status", db)) := by
  refine ⟨fun hWF => ⟨?_, ?_, ?_, ?_,
      updateAchievement_pg_statuses f now ctx id input db,
      repoAddAttachment_pg f db id att,
      createAchievement_pg_shape f now freshOid freshID ctx input db⟩,
    ?_, ?_⟩
  · rcases submitForVerification_pg_shape f now ctx id db with h | ⟨r0, hf, hs, h⟩
    · rw [h]; exact edges_of_same db
    · rw [h]
      exact edges_of_map db id "draft" "submitted" now {} r0 hWF.1 hf hs
        (by simp [legalEdge])
  · rcases deleteAchievement_pg_shape f now ctx id db with h | ⟨r0, hf, hs, h⟩
    · rw [h]; exact edges_of_same db
    · rw [h]
      exact edges_of_map db id "draft" "deleted" now {} r0 hWF.1 hf hs
        (by simp [legalEdge])
  · rcases verifyAchievement_pg_shape f now ctx id db with h | ⟨r0, u0, hf, hs, h⟩
    · rw [h]; exact edges_of_same db
    · rw [h]
      exact edges_of_map db id "submitted" "verified" now
        { verifierID := some u0 } r0 hWF.1 hf hs (by simp [legalEdge])
  · rcases rejectAchievement_pg_shape f now ctx id note db with h | ⟨r0, u0, hf, hs, h⟩
    · rw [h]; exact edges_of_same db
    · rw [h]
      exact edges_of_map db id "submitted" "rejected" now
        { verifierID := some u0, rejectionNote := some note } r0 hWF.1 hf hs
        (by simp [legalEdge])
  · intro hrole hsid hid hfind hown hst
    constructor
    · simp [submitForVerification, hrole, hsid, hid, hfind, hown, hst]
    · simp [deleteAchievement, hrole, hsid, hid, hfind, hown, hst]
  · intro hrole huid hlect hid hfind hadv hst
    constructor
    · simp [verifyAchievement, hrole, huid, hlect, hid, hfind, hadv, hst]
    · simp [rejectAchievement, hrole, huid, hlect, hid, hfind, hadv, hst]

/-- Concrete instantiation of `C1_coordinator_status_transitions`: on the
sample database, `Submit`/`Delete` of an already-`verified` achievement
and `Verify`/`Reject` of a `draft` achievement all fail with the
`invalid_status` error and leave the database unchanged, and the
content-update handler changes no status. -/
theorem C1_coordinator_status_transitions_witness :
    (submitForVerification noFaults 5 ctxS1 "r1" dbVerified =
      (.badRequest "invalid_status", dbVerified)) ∧
    (deleteAchievement noFaults 5 ctxS1 "r1" dbVerified =
      (.badRequest "invalid_status", dbVerified)) ∧
    (verifyAchievement noFaults 5 ctxAdv "r1" dbA =
      (.badRequest "invalid_status", dbA)) ∧
    (rejectAchievement noFaults 5 ctxAdv "r1" "no evidence" dbA =
      (.badRequest "invalid_status", dbA)) ∧
    ((updateAchievement noFaults 5 ctxS1 "r1" inputNoAtt dbA).2.pg.map
      (·.status) = dbA.pg.map (·.status)) := by
  refine ⟨?_, ?_, ?_, ?_, ?_⟩
  · exact ((C1_coordinator_status_transitions noFaults 5 ctxS1 "r1"
      "no evidence" "s1" "u9" oidB "r2" inputNoAtt attB dbVerified
      { refA with status := "verified" } ⟨"L1", "u9"⟩).2.1
      rfl rfl (by decide) (by decide) rfl (by decide)).1
  · exact ((C1_coordinator_status_transitions noFaults 5 ctxS1 "r1"
      "no evidence" "s1" "u9" oidB "r2" inputNoAtt attB dbVerified
      { refA with status := "verified" } ⟨"L1", "u9"⟩).2.1
      rfl rfl (by decide) (by decide) rfl (by decide)).2
  · exact ((C1_coordinator_status_transitions noFaults 5 ctxAdv "r1"
      "no evidence" "s1" "u9" oidB "r2" inputNoAtt attB dbA
      refA ⟨"L1", "u9"⟩).2.2
      rfl rfl (by decide) (by decide) (by decide) (by decide) (by decide)).1
  · exact ((C1_coordinator_status_transitions noFaults 5 ctxAdv "r1"
      "no evidence" "s1" "u9" oidB "r2" inputNoAtt attB dbA
      refA ⟨"L1", "u9"⟩).2.2
      rfl rfl (by decide) (by decide) (by decide) (by decide) (by decide)).2
  · exact ((C1_coordinator_status_transitions noFaults 5 ctxS1 "r1"
      "no evidence" "s1" "u9" oidB "r2" inputNoAtt attB dbA
      refA ⟨"L1", "u9"⟩).1 (by decide)).2.2.2.2.1

/-- Claim C9: every list operation — `FindByStudentID` (student list),
`FindAchievementsByStudentIDs` (advisor list) and the admin `FindAll` —
returns its results ordered by `createdAt` descending (most recent
first). -/
theorem C9_list_operations_ordered (db : DB) (sid : String)
    (ids : List String) (status : Option String) (page limit : Int) :
    List.Sorted createdDesc (repoFindByStudentID db sid) ∧
    List.Sorted createdDesc (repoFindAchievementsByStudentIDs db ids) ∧
    List.Sorted createdDesc (repoFindAll db status page limit).1 := by
  refine ⟨?_, ?_, ?_⟩
  · exact List.sorted_insertionSort createdDesc _
  · unfold repoFindAchievementsByStudentIDs
    split
    · simp
    · exact List.sorted_insertionSort createdDesc _
  · unfold repoFindAll orderByCreatedAtDesc
    simp only []
    exact List.Pairwise.sublist
      ((List.take_sublist _ _).trans (List.drop_sublist _ _))
      (List.sorted_insertionSort createdDesc _)

/-- Claim C4 (code bug, evaluated at the failing inputs): `UpdateStatus`
is NOT a conditional write.  On a row stored as `verified`, the call
`UpdateStatus(id, "submitted")` succeeds and overwrites the status
instead of returning InvalidStateTransition; on an id matching no row it
also reports success (GORM's `Updates` reports no error on zero affected
rows, and the affected-row count is never checked). -/
theorem C4_updateStatus_not_conditional :
    repoUpdateStatus noFaults 5 dbVerified "r1" "submitted" {} =
      (.ok (),
        { dbVerified with
            pg := [{ refA with
                       status := "submitted", submittedAt := some 5,
                       updatedAt := 5 }] }) ∧
    repoUpdateStatus noFaults 5 dbA "missing" "submitted" {} =
      (.ok (), dbA) := by
  constructor
  · rfl
  · rfl

/-- Claim C7 (code bug, evaluated at the failing input): `AddAttachment`
on an achievement whose Mongo document is soft-deleted does NOT fail with
a not-found-equivalent error: the `deleted ≠ true` filter makes the push
match nothing, the unchecked update result is discarded, and the call
reports success while the document (and its attachment list) is
unchanged. -/
theorem C7_addAttachment_soft_deleted_silent_success :
    repoAddAttachment noFaults dbDeletedDoc "r1" attB =
      (.ok (), dbDeletedDoc) := by
  rfl

/-- Claim C5: for every existing reference and every status,
`SubmitForVerification`, `DeleteAchievement` and `UpdateAchievement`
invoked by a student whose id differs from the reference's `studentId`
return Forbidden without modifying either store (no status hypothesis
appears); a truly nonexistent id yields NotFound instead. -/
theorem C5_ownership_enforcement (f : Faults) (now : Nat) (ctx : Ctx)
    (id sid : String) (input : AchievementInput) (db : DB)
    (ref : AchievementReference) :
    (ctx.role = "mahasiswa" → ctxValidStudentID ctx = some sid → id ≠ "" →
      pgFindByID db id = some ref → ref.studentId ≠ sid →
      submitForVerification f now ctx id db = (.forbidden, db) ∧
      deleteAchievement f now ctx id db = (.forbidden, db) ∧
      updateAchievement f now ctx id input db = (.forbidden, db)) ∧
    (ctx.role = "mahasiswa" → ctxValidStudentID ctx = some sid → id ≠ "" →
      pgFindByID db id = none →
      submitForVerification f now ctx id db = (.notFound, db) ∧
      deleteAchievement f now ctx id db = (.notFound, db) ∧
      updateAchievement f now ctx id input db = (.notFound, db)) := by
  constructor
  · intro hrole hsid hid hfind hown
    refine ⟨?_, ?_, ?_⟩
    · simp [submitForVerification, hrole, hsid, hid, hfind, hown]
    · simp [deleteAchievement, hrole, hsid, hid, hfind, hown]
    · simp [updateAchievement, hrole, hsid, hid, hfind, hown]
  · intro hrole hsid hid hfind
    refine ⟨?_, ?_, ?_⟩
    · simp [submitForVerification, hrole, hsid, hid, hfind]
    · simp [deleteAchievement, hrole, hsid, hid, hfind]
    · simp [updateAchievement, hrole, hsid, hid, hfind]

/-- Concrete instantiation of `C5_ownership_enforcement`: student `s2`
touching `s1`'s achievement gets Forbidden with nothing modified; a
bogus id gets NotFound. -/
theorem C5_ownership_enforcement_witness :
    submitForVerification noFaults 5 ctxS2 "r1" dbA = (.forbidden, dbA) ∧
    deleteAchievement noFaults 5 ctxS2 "r1" dbA = (.forbidden, dbA) ∧
    updateAchievement noFaults 5 ctxS2 "r1" inputNoAtt dbA =
      (.forbidden, dbA) ∧
    submitForVerification noFaults 5 ctxS1 "zzz" dbA = (.notFound, dbA) := by
  obtain ⟨h1, h2, h3⟩ :=
    (C5_ownership_enforcement noFaults 5 ctxS2 "r1" "s2" inputNoAtt dbA
      refA).1 rfl rfl (by decide) (by decide) (by decide)
  obtain ⟨h4, h5, h6⟩ :=
    (C5_ownership_enforcement noFaults 5 ctxS1 "zzz" "s1" inputNoAtt dbA
      refA).2 rfl rfl (by decide) (by decide)
  exact ⟨h1, h2, h3, h4⟩

/-- Claim C3 (amended): during `Create`, if the PostgreSQL INSERT
statement fails after the Mongo detail document was inserted, the detail
document just created is removed by the compensating `DeleteOne` and the
original insert error is propagated: the call returns exactly the
`postgres insert error` with the database as it was before the call.
(The compensating delete is best-effort; the spec accepts an orphan when
it itself fails, so it is assumed to succeed here.  A failure of the
transaction commit after a successful INSERT is NOT compensated — see
`C3_create_compensation_counterexample` for that divergence from the
original claim.) -/
theorem C3_create_compensation (f : Faults) (now : Nat)
    (freshOid freshID : String) (db : DB) (pgData : AchievementReference)
    (mongoData : MongoAchievement)
    (hsid : pgData.studentId ≠ "")
    (hb : f.pgBeginFail = false) (hm : f.mongoInsertFail = false)
    (hi : f.pgInsertFail = true) (hc : f.mongoCompensateFail = false)
    (hfresh : ∀ d ∈ db.mongo, d.oid ≠ freshOid) :
    repoCreate f now freshOid freshID db pgData mongoData =
      (.error "postgres insert error", db) := by
  unfold repoCreate
  simp only [hsid, hb, hm, hi, hc, if_false, if_true, Bool.false_eq_true,
    Bool.true_eq_false, ite_false, ite_true]
  have hfilter : List.filter (fun d => decide (d.oid ≠ freshOid))
      (db.mongo ++ [{ mongoData with oid := freshOid }]) = db.mongo := by
    rw [List.filter_append]
    have h1 : List.filter (fun d => decide (d.oid ≠ freshOid)) db.mongo =
        db.mongo := by
      apply List.filter_eq_self.mpr
      intro a ha
      simpa using hfresh a ha
    have h2 : List.filter (fun d => decide (d.oid ≠ freshOid))
        [{ mongoData with oid := freshOid }] = [] := by
      simp
    rw [h1, h2, List.append_nil]
  rw [hfilter]

/-- Concrete instantiation of `C3_create_compensation` on the sample
database, with the PostgreSQL insert made to fail. -/
theorem C3_create_compensation_witness :
    repoCreate { pgInsertFail := true } 5 oidB "r2" dbA
      { id := "", studentId := "s1", mongoAchievementID := ""
        status := "draft", createdAt := 5, updatedAt := 5 }
      { docA with oid := "" } = (.error "postgres insert error", dbA) :=
  C3_create_compensation { pgInsertFail := true } 5 oidB "r2" dbA _ _
    (by decide) rfl rfl rfl rfl (by decide)

/-- Claim C3 is false as stated: when the transaction commit fails after
a successful PostgreSQL INSERT (`return tx.Commit().Error` with no
compensation on that path), the Reference-side step has failed after the
Detail insert, yet the fresh Mongo document is NOT removed — it remains
as an orphan — and a commit error, not the insert error, propagates. -/
theorem C3_create_compensation_counterexample :
    repoCreate { pgCommitFail := true } 5 oidB "r2" dbA
      { id := "", studentId := "s1", mongoAchievementID := ""
        status := "draft", createdAt := 5, updatedAt := 5 }
      { docA with oid := "" } =
      (.error "commit error",
       { dbA with mongo := dbA.mongo ++ [{ docA with oid := oidB }] }) ∧
    ({ docA with oid := oidB } : MongoAchievement) ∈
      (repoCreate { pgCommitFail := true } 5 oidB "r2" dbA
        { id := "", studentId := "s1", mongoAchievementID := ""
          status := "draft", createdAt := 5, updatedAt := 5 }
        { docA with oid := "" }).2.mongo := by
  refine ⟨rfl, ?_⟩
  decide

/-- Soft-deleting and then immediately reverting documents that were not
soft-deleted to begin with restores the original collection. -/
theorem map_unset_after_set (oid : String) (now : Nat) :
    ∀ l : List MongoAchievement,
      (∀ d ∈ l, d.oid = oid → d.deleted = false ∧ d.deletedAt = none) →
      (l.map (fun d => if d.oid = oid then setDeletedFlag now d else d)).map
        (fun d => if d.oid = oid then unsetDeletedFlag d else d) = l := by
  intro l
  induction l with
  | nil => intro _; rfl
  | cons a t ih =>
    intro h
    simp only [List.map_cons]
    rw [ih (fun d hd hx => h d (List.mem_cons_of_mem a hd) hx)]
    by_cases hx : a.oid = oid
    · have h2 := h a (List.mem_cons_self a t) hx
      rw [if_pos hx, if_pos (show (setDeletedFlag now a).oid = oid from hx)]
      have : unsetDeletedFlag (setDeletedFlag now a) = a := by
        cases a
        simp_all [setDeletedFlag, unsetDeletedFlag]
      rw [this]
    · rw [if_neg hx, if_neg hx]

/-- Claim C2 (amended): during `Delete`, if the transaction begin or the
status UPDATE of `UpdateStatus(id, "deleted")` fails after the Mongo
detail document was successfully soft-deleted, the soft-delete flag is
reverted by the compensating `$unset` and the original error is
propagated: the whole database is back to its pre-call state and a
subsequent `FindDetailByMongoID` with the default exclusion returns the
document again.  (The compensating `$unset` is best-effort — its error
is discarded by the code — so it is assumed to succeed.  A failure of
the transaction commit is NOT compensated — see
`C2_delete_compensation_counterexample` for that divergence from the
original claim.) -/
theorem C2_delete_compensation (f : Faults) (now : Nat) (db : DB)
    (id oid : String) (ref : AchievementReference) (doc : MongoAchievement)
    (hnd : (db.mongo.map (·.oid)).Nodup)
    (hfind : pgFindByID db id = some ref)
    (hhex : objectIDFromHex ref.mongoAchievementID = some oid)
    (hdoc : mongoFindByOID db oid = some doc)
    (hnotdel : doc.deleted = false) (hnoat : doc.deletedAt = none)
    (hms : f.mongoUpdateFail = false) (hcomp : f.mongoCompensateFail = false)
    (hfail : f.pgBeginFail = true ∨ f.pgUpdateFail = true) :
    (repoUpdateStatus f now db id "deleted" {} = (.error "begin error", db) ∨
     repoUpdateStatus f now db id "deleted" {} =
       (.error "pg update error", db)) ∧
    repoFindDetailByMongoID (repoUpdateStatus f now db id "deleted" {}).2
      ref.mongoAchievementID = .ok doc := by
  have hdoc2 := hdoc
  unfold mongoFindByOID at hdoc2
  have hany : db.mongo.any (fun d => d.oid = oid) = true := by
    refine List.any_eq_true.mpr ⟨doc, List.mem_of_find?_eq_some hdoc2, ?_⟩
    simpa using List.find?_some hdoc2
  have hpre : ∀ d ∈ db.mongo, d.oid = oid →
      d.deleted = false ∧ d.deletedAt = none := by
    intro d hd hx
    have : d = doc := find?_key_unique (fun x => x.oid) hnd hdoc2 hd hx
    subst this
    exact ⟨hnotdel, hnoat⟩
  have hroundtrip :
      mongoUpdateWhereOID (mongoUpdateWhereOID db oid (setDeletedFlag now))
        oid unsetDeletedFlag = db := by
    unfold mongoUpdateWhereOID
    simp only []
    rw [map_unset_after_set oid now db.mongo hpre]
  have hres :
      repoUpdateStatus f now db id "deleted" {} =
        (.error "begin error", db) ∨
      repoUpdateStatus f now db id "deleted" {} =
        (.error "pg update error", db) := by
    by_cases hbf : f.pgBeginFail = true
    · left
      unfold repoUpdateStatus
      rw [if_neg (by decide), if_pos rfl]
      simp only [hfind, hhex, hms, hany, hcomp, hbf, Bool.false_eq_true,
        not_true, not_false_eq_true, ite_true, ite_false, if_true, if_false]
      rw [hroundtrip]
    · have huf : f.pgUpdateFail = true := hfail.resolve_left hbf
      right
      unfold repoUpdateStatus
      rw [if_neg (by decide), if_pos rfl]
      simp only [hfind, hhex, hms, hany, hcomp, hbf, huf, Bool.false_eq_true,
        not_true, not_false_eq_true, ite_true, ite_false, if_true, if_false]
      rw [hroundtrip]
  refine ⟨hres, ?_⟩
  have hpost : (repoUpdateStatus f now db id "deleted" {}).2 = db := by
    rcases hres with h | h <;> rw [h]
  rw [hpost]
  unfold repoFindDetailByMongoID
  have hq : db.mongo.find? (fun d => d.oid = oid && d.deleted ≠ true) =
      some doc := by
    refine find?_of_imp _ _ ?_ hdoc2 ?_
    · intro x hx
      exact (Bool.and_eq_true_iff.mp hx).1
    · have h1 : doc.oid = oid := by
        have := List.find?_some hdoc2
        simpa using this
      simp [h1, hnotdel]
  simp only [hhex, hq]

/-- Concrete instantiation of `C2_delete_compensation` on the sample
database, with the PostgreSQL status UPDATE made to fail. -/
theorem C2_delete_compensation_witness :
    (repoUpdateStatus { pgUpdateFail := true } 7 dbA "r1" "deleted" {} =
      (.error "begin error", dbA) ∨
     repoUpdateStatus { pgUpdateFail := true } 7 dbA "r1" "deleted" {} =
      (.error "pg update error", dbA)) ∧
    repoFindDetailByMongoID
      (repoUpdateStatus { pgUpdateFail := true } 7 dbA "r1" "deleted" {}).2
      refA.mongoAchievementID = .ok docA :=
  C2_delete_compensation { pgUpdateFail := true } 7 dbA "r1" oidA refA docA
    (by decide) (by decide) rfl (by decide) rfl rfl rfl rfl (Or.inr rfl)

/-- Claim C2 is false as stated: when the transaction commit fails after
the Mongo soft-delete succeeded (`return tx.Commit().Error` with no
`$unset` on that path), the Reference-side status update has failed, yet
the Detail document's soft-delete flag is NOT reverted: the reference
row still shows `draft`, the document stays flagged deleted, and a
subsequent detail lookup with the default exclusion no longer returns
the document. -/
theorem C2_delete_compensation_counterexample :
    repoUpdateStatus { pgCommitFail := true } 7 dbA "r1" "deleted" {} =
      (.error "commit error",
       { dbA with
           mongo := [{ docA with deleted := true, deletedAt := some 7 }] }) ∧
    repoFindDetailByMongoID
      (repoUpdateStatus { pgCommitFail := true } 7 dbA "r1" "deleted" {}).2
      refA.mongoAchievementID = .error "mongo: no documents in result" := by
  refine ⟨rfl, rfl⟩

/-- `ctxValidStudentID` never returns the nil UUID. -/
theorem ctxValidStudentID_ne_empty {ctx : Ctx} {sid : String}
    (h : ctxValidStudentID ctx = some sid) : sid ≠ "" := by
  unfold ctxValidStudentID at h
  rcases hc : ctx.studentID with _ | s
  · rw [hc] at h
    cases h
  · rw [hc] at h
    by_cases hs : s = ""
    · subst hs
      simp at h
    · have h2 : some s = some sid := by
        simpa [hs] using h
      cases h2
      exact hs

/-- A successful `ObjectIDFromHex` parse echoes a non-empty input. -/
theorem objectIDFromHex_eq_some {s t : String}
    (h : objectIDFromHex s = some t) : t = s ∧ s ≠ "" := by
  unfold objectIDFromHex at h
  split at h
  · next hcond =>
    refine ⟨(Option.some.inj h).symm, ?_⟩
    intro he
    subst he
    simp at hcond
  · cases h

/-- Claim C6: for every valid `(studentId, content)` pair, a successful
`Create` followed by `findById` returns a reference in status `draft`
with a non-empty `detailRef` (the Mongo ObjectID hex), and looking that
`detailRef` up in the detail store returns content equal to the input. -/
theorem C6_create_roundtrip (db : DB) (ctx : Ctx) (input : AchievementInput)
    (now : Nat) (freshOid freshID sid : String)
    (hrole : ctx.role = "mahasiswa")
    (hsid : ctxValidStudentID ctx = some sid)
    (hbind : bindFails input = false)
    (hhex : objectIDFromHex freshOid = some freshOid)
    (hpgfresh : ∀ r ∈ db.pg, r.id ≠ freshID)
    (hmfresh : ∀ d ∈ db.mongo, d.oid ≠ freshOid) :
    (createAchievement noFaults now freshOid freshID ctx input db).1 =
      .ok { id := freshID, mongoAchievementId := freshOid
            status := "draft" } ∧
    freshOid ≠ "" ∧
    pgFindByID (createAchievement noFaults now freshOid freshID ctx input db).2
        freshID = some
      { id := freshID, studentId := sid, mongoAchievementID := freshOid
        status := "draft", createdAt := now, updatedAt := now } ∧
    repoFindDetailByMongoID
        (createAchievement noFaults now freshOid freshID ctx input db).2
        freshOid = .ok
      { oid := freshOid, studentId := sid
        achievementType := input.achievementType, title := input.title
        description := input.description, details := input.details
        attachments := input.attachments, tags := input.tags
        points := input.points, createdAt := now, updatedAt := now } := by
  have hsnz : sid ≠ "" := ctxValidStudentID_ne_empty hsid
  have hstate : createAchievement noFaults now freshOid freshID ctx input db =
      (.ok { id := freshID, mongoAchievementId := freshOid
             status := "draft" },
       { db with
           pg := db.pg ++
             [{ id := freshID, studentId := sid
                mongoAchievementID := freshOid
                status := "draft", createdAt := now, updatedAt := now }]
           mongo := db.mongo ++
             [{ oid := freshOid, studentId := sid
                achievementType := input.achievementType
                title := input.title, description := input.description
                details := input.details, attachments := input.attachments
                tags := input.tags, points := input.points
                createdAt := now, updatedAt := now }] }) := by
    unfold createAchievement repoCreate noFaults
    simp only [hrole, hsid, hbind, hsnz, if_false, ite_true, ite_false,
      Bool.false_eq_true, ite_self]
    simp
  refine ⟨by rw [hstate], (objectIDFromHex_eq_some hhex).2, ?_, ?_⟩
  · rw [hstate]
    unfold pgFindByID
    have hnone : db.pg.find? (fun r => r.id = freshID) = none :=
      List.find?_eq_none.mpr (fun r hr => by simp [hpgfresh r hr])
    simp [List.find?_append, hnone]
  · rw [hstate]
    unfold repoFindDetailByMongoID
    have hnone : db.mongo.find?
        (fun d => d.oid = freshOid && !d.deleted) = none :=
      List.find?_eq_none.mpr (fun d hd => by simp [hmfresh d hd])
    simp [hhex, List.find?_append, hnone]

/-- Concrete instantiation of `C6_create_roundtrip` on the sample
database. -/
theorem C6_create_roundtrip_witness :
    (createAchievement noFaults 9 oidB "r2" ctxS1 inputNew dbA).1 =
      .ok { id := "r2", mongoAchievementId := oidB, status := "draft" } ∧
    oidB ≠ "" ∧
    pgFindByID (createAchievement noFaults 9 oidB "r2" ctxS1 inputNew dbA).2
        "r2" = some
      { id := "r2", studentId := "s1", mongoAchievementID := oidB
        status := "draft", createdAt := 9, updatedAt := 9 } ∧
    repoFindDetailByMongoID
        (createAchievement noFaults 9 oidB "r2" ctxS1 inputNew dbA).2
        oidB = .ok
      { oid := oidB, studentId := "s1"
        achievementType := inputNew.achievementType, title := inputNew.title
        description := inputNew.description, details := inputNew.details
        attachments := inputNew.attachments, tags := inputNew.tags
        points := inputNew.points, createdAt := 9, updatedAt := 9 } :=
  C6_create_roundtrip dbA ctxS1 inputNew 9 oidB "r2" "s1" rfl rfl rfl
    (by decide) (by decide) (by decide)


/-- Claim C10: for every achievement whose Mongo detail document carries
the soft-delete flag, `FindDetailByMongoID` fails (its filter excludes
soft-deleted documents unconditionally, with no parameter to include
them), so `DetailAchievement` returns a 500 internal error instead of
the combined payload — even for an admin caller. -/
theorem C10_soft_deleted_detail_unreachable (db : DB) (ctx : Ctx)
    (id oid : String) (ref : AchievementReference)
    (hid : id ≠ "")
    (hfind : pgFindByID db id = some ref)
    (hhex : objectIDFromHex ref.mongoAchievementID = some oid)
    (hdel : ∀ d ∈ db.mongo, d.oid = oid → d.deleted = true)
    (hrole : ctx.role = "admin") :
    repoFindDetailByMongoID db ref.mongoAchievementID =
      .error "mongo: no documents in result" ∧
    detailAchievement ctx id db =
      .internalError "mongo: no documents in result" := by
  have hnone : db.mongo.find? (fun d => d.oid = oid && d.deleted ≠ true) =
      none := by
    apply List.find?_eq_none.mpr
    intro d hd
    by_cases hx : d.oid = oid
    · simp [hx, hdel d hd hx]
    · simp [hx]
  have h1 : repoFindDetailByMongoID db ref.mongoAchievementID =
      .error "mongo: no documents in result" := by
    unfold repoFindDetailByMongoID
    simp only [hhex, hnone]
  refine ⟨h1, ?_⟩
  simp [detailAchievement, hid, hfind, hrole, h1]

/-- Concrete instantiation of `C10_soft_deleted_detail_unreachable` on
the sample database with the document soft-deleted. -/
theorem C10_soft_deleted_detail_unreachable_witness :
    repoFindDetailByMongoID dbDeletedDoc refA.mongoAchievementID =
      .error "mongo: no documents in result" ∧
    detailAchievement ctxAdmin "r1" dbDeletedDoc =
      .internalError "mongo: no documents in result" :=
  C10_soft_deleted_detail_unreachable dbDeletedDoc ctxAdmin "r1" oidA refA
    (by decide) (by decide) rfl (by decide) rfl


/-- No status update (any status, any faults) ever changes any
document's attachments list. -/
theorem repoUpdateStatus_mongo_attachments (f : Faults) (now : Nat)
    (db : DB) (id status : String) (opts : UpdateStatusOptions) :
    ((repoUpdateStatus f now db id status opts).2.mongo.map (·.attachments)) =
      db.mongo.map (·.attachments) := by
  unfold repoUpdateStatus
  repeat' split
  all_goals try rfl
  all_goals simp only [pgUpdateWhereID, mongoUpdateWhereOID, List.map_map]
  all_goals apply List.map_congr_left
  all_goals intro d hd
  all_goals simp only [Function.comp_apply]
  all_goals repeat' split
  all_goals rfl

/-- Repackaging of `repoUpdateStatus_mongo_attachments` along a known
result pair. -/
theorem repoUpdateStatus_mongo_attachments_of_eq {f : Faults} {now : Nat}
    {db : DB} {id status : String} {opts : UpdateStatusOptions}
    {res : Except String Unit} {db2 : DB}
    (heq : repoUpdateStatus f now db id status opts = (res, db2)) :
    db2.mongo.map (·.attachments) = db.mongo.map (·.attachments) := by
  have h := repoUpdateStatus_mongo_attachments f now db id status opts
  rw [heq] at h
  exact h

/-- `SubmitForVerification` never changes any attachments list. -/
theorem submitForVerification_mongo_attachments (f : Faults) (now : Nat)
    (ctx : Ctx) (id : String) (db : DB) :
    ((submitForVerification f now ctx id db).2.mongo.map (·.attachments)) =
      db.mongo.map (·.attachments) := by
  unfold submitForVerification
  repeat' split
  all_goals try rfl
  all_goals rename_i ref hfind hown hstat x ea db2 heq
  all_goals exact repoUpdateStatus_mongo_attachments_of_eq heq

/-- `DeleteAchievement` (the dual-store soft delete) never changes any
attachments list. -/
theorem deleteAchievement_mongo_attachments (f : Faults) (now : Nat)
    (ctx : Ctx) (id : String) (db : DB) :
    ((deleteAchievement f now ctx id db).2.mongo.map (·.attachments)) =
      db.mongo.map (·.attachments) := by
  unfold deleteAchievement
  repeat' split
  all_goals try rfl
  all_goals rename_i ref hfind hown hstat x ea db2 heq
  all_goals exact repoUpdateStatus_mongo_attachments_of_eq heq

/-- `VerifyAchievement` never changes any attachments list. -/
theorem verifyAchievement_mongo_attachments (f : Faults) (now : Nat)
    (ctx : Ctx) (id : String) (db : DB) :
    ((verifyAchievement f now ctx id db).2.mongo.map (·.attachments)) =
      db.mongo.map (·.attachments) := by
  unfold verifyAchievement
  repeat' split
  all_goals try rfl
  all_goals rename_i xu uid hequid xl lect heql hid xf ref hfind hadv hstat xe ea db2 heq
  all_goals exact repoUpdateStatus_mongo_attachments_of_eq heq

/-- `RejectAchievement` never changes any attachments list. -/
theorem rejectAchievement_mongo_attachments (f : Faults) (now : Nat)
    (ctx : Ctx) (id note : String) (db : DB) :
    ((rejectAchievement f now ctx id note db).2.mongo.map (·.attachments)) =
      db.mongo.map (·.attachments) := by
  unfold rejectAchievement
  repeat' split
  all_goals try rfl
  all_goals rename_i xu uid hequid xl lect heql hid xf ref hfind hadv hstat hnote xe ea db2 heq
  all_goals exact repoUpdateStatus_mongo_attachments_of_eq heq

/-- After `UpdateContent`, every document's attachments list is either
the caller-supplied replacement list or its own previous list. -/
theorem repoUpdateContent_mongo_attachments (f : Faults) (now : Nat)
    (db : DB) (id : String) (doc : MongoAchievement) :
    ∀ d2 ∈ (repoUpdateContent f now db id doc).2.mongo,
      d2.attachments = doc.attachments ∨
      ∃ d ∈ db.mongo, d2.attachments = d.attachments := by
  unfold repoUpdateContent
  repeat' split
  all_goals intro d2 hd2
  all_goals try exact Or.inr ⟨d2, hd2, rfl⟩
  all_goals simp only [pgUpdateWhereID, mongoUpdateWhereOID] at hd2
  all_goals obtain ⟨d, hd, rfl⟩ := List.mem_map.mp hd2
  all_goals split
  all_goals first
    | exact Or.inl rfl
    | exact Or.inr ⟨d, hd, rfl⟩

/-- After `AddAttachment`, every document's attachments list is its
previous list, possibly with the new attachment appended at the end —
existing attachments are preserved in their original order. -/
theorem repoAddAttachment_mongo_attachments (f : Faults) (db : DB)
    (id : String) (att : Attachment) :
    ∀ d2 ∈ (repoAddAttachment f db id att).2.mongo,
      ∃ d ∈ db.mongo, d2.attachments = d.attachments ∨
        d2.attachments = d.attachments ++ [att] := by
  unfold repoAddAttachment
  repeat' split
  all_goals intro d2 hd2
  all_goals try exact ⟨d2, hd2, Or.inl rfl⟩
  all_goals obtain ⟨d, hd, rfl⟩ := List.mem_map.mp hd2
  all_goals split
  all_goals first
    | exact ⟨d, hd, Or.inr rfl⟩
    | exact ⟨d, hd, Or.inl rfl⟩

/-- After the `UpdateAchievement` handler, every document's attachments
list is either the request's attachments list (wholesale replacement) or
its own previous list. -/
theorem updateAchievement_mongo_attachments (f : Faults) (now : Nat)
    (ctx : Ctx) (id : String) (input : AchievementInput) (db : DB) :
    ∀ d2 ∈ (updateAchievement f now ctx id input db).2.mongo,
      d2.attachments = input.attachments ∨
      ∃ d ∈ db.mongo, d2.attachments = d.attachments := by
  unfold updateAchievement
  repeat' split
  all_goals intro d2 hd2
  all_goals try exact Or.inr ⟨d2, hd2, rfl⟩
  all_goals simp only [srespPair_snd] at hd2
  all_goals exact repoUpdateContent_mongo_attachments f now db id _ d2 hd2


/-- Claim C8 is false as stated: `UpdateAchievement` (via
`UpdateContent`) replaces the attachments array wholesale with the
caller-supplied list, so an update that carries no attachments removes
the existing one — here `attA` was present before the operation and is
in no document afterwards, while the operation reports success. -/
theorem C8_attachments_append_only_counterexample :
    attA ∈ docA.attachments ∧ docA ∈ dbA.mongo ∧
    (updateAchievement noFaults 9 ctxS1 "r1" inputNoAtt dbA).1 = .ok () ∧
    ∀ d ∈ (updateAchievement noFaults 9 ctxS1 "r1" inputNoAtt dbA).2.mongo,
      attA ∉ d.attachments := by
  refine ⟨by decide, by decide, by decide, ?_⟩
  decide

/-- Claim C8 as amended: the attachments list is append-only under
`AddAttachment` (every existing attachment is preserved in its original
order, with the new one appended at the end) and untouched by every
status-transition operation (`UpdateStatus` at the repository level and
the submit / delete / verify / reject handlers); `UpdateContent`
(`UpdateAchievement`), however, replaces the attachments array wholesale
with the caller-supplied list and so can remove existing attachments. -/
theorem C8_attachments_append_only_amended (f : Faults) (now : Nat)
    (ctx : Ctx) (id note status : String) (att : Attachment)
    (opts : UpdateStatusOptions) (input : AchievementInput) (db : DB) :
    (∀ d2 ∈ (repoAddAttachment f db id att).2.mongo,
      ∃ d ∈ db.mongo, d2.attachments = d.attachments ∨
        d2.attachments = d.attachments ++ [att]) ∧
    ((repoUpdateStatus f now db id status opts).2.mongo.map (·.attachments) =
      db.mongo.map (·.attachments)) ∧
    ((submitForVerification f now ctx id db).2.mongo.map (·.attachments) =
      db.mongo.map (·.attachments)) ∧
    ((deleteAchievement f now ctx id db).2.mongo.map (·.attachments) =
      db.mongo.map (·.attachments)) ∧
    ((verifyAchievement f now ctx id db).2.mongo.map (·.attachments) =
      db.mongo.map (·.attachments)) ∧
    ((rejectAchievement f now ctx id note db).2.mongo.map (·.attachments) =
      db.mongo.map (·.attachments)) ∧
    (∀ d2 ∈ (updateAchievement f now ctx id input db).2.mongo,
      d2.attachments = input.attachments ∨
      ∃ d ∈ db.mongo, d2.attachments = d.attachments) :=
  ⟨repoAddAttachment_mongo_attachments f db id att,
   repoUpdateStatus_mongo_attachments f now db id status opts,
   submitForVerification_mongo_attachments f now ctx id db,
   deleteAchievement_mongo_attachments f now ctx id db,
   verifyAchievement_mongo_attachments f now ctx id db,
   rejectAchievement_mongo_attachments f now ctx id note db,
   updateAchievement_mongo_attachments f now ctx id input db⟩

/-- Concrete instantiation of `C8_attachments_append_only_amended`: the
document produced by appending `attB` on the sample database arises from
an original document by appending. -/
theorem C8_attachments_append_only_amended_witness :
    ∃ d ∈ dbA.mongo,
      ({ docA with attachments := docA.attachments ++ [attB] } :
        MongoAchievement).attachments = d.attachments ∨
      ({ docA with attachments := docA.attachments ++ [attB] } :
        MongoAchievement).attachments = d.attachments ++ [attB] :=
  (C8_attachments_append_only_amended noFaults 3 ctxS1 "r1" "n" "submitted"
    attB {} inputNoAtt dbA).1
    { docA with attachments := docA.attachments ++ [attB] } (by decide)

end StudentAchievement
